import Mathlib

/-!
Verification of the ObsidianChat conversation pipeline (src/main.ts).

Text is modelled as `List Char`.  JavaScript strings, the regexes used by
the plugin, and `Array`/object operations are translated into executable
Lean functions.  The Obsidian collaborators (vault, metadata cache, link
resolver, network transport) are passed in as explicit parameters: a
document store is an association list from path to content, the outcome of
each fallible store mutation is drawn from an explicit oracle list, and a
network response is a record `(status, text, parsed json)` handed to the
adapter's response-handling code.
-/

namespace ObsChat

abbrev Str := List Char

def s2l (s : String) : Str := s.data

/-- The whitespace class used by JavaScript `trim` and by `\s` in the
regexes of main.ts (ASCII whitespace plus NBSP and the BOM). -/
def isWs (c : Char) : Bool :=
  c = ' ' || c = '\t' || c = '\n' || c = Char.ofNat 11 || c = Char.ofNat 12 ||
  c = '\r' || c = Char.ofNat 160 || c = Char.ofNat 65279

/-- `\w` of the JavaScript regexes in main.ts: letter, digit or underscore. -/
def isWordChar (c : Char) : Bool :=
  ('a' ≤ c && c ≤ 'z') || ('A' ≤ c && c ≤ 'Z') || ('0' ≤ c && c ≤ '9') || c = '_'

/-- JavaScript `String.prototype.trim`. -/
def trim (l : Str) : Str :=
  ((l.dropWhile isWs).reverse.dropWhile isWs).reverse

/-- JavaScript `String.prototype.includes` (Obsidian's `String.contains`):
substring test. -/
def containsSub (l pat : Str) : Bool :=
  decide (pat <:+: l)

/-- JavaScript `String.prototype.indexOf` for a single character, -1 when
absent. -/
def jsIndexOfGo (c : Char) : Str → Nat → Int
  | [], _ => -1
  | a :: r, k => if a = c then (k : Int) else jsIndexOfGo c r (k + 1)

def jsIndexOf (l : Str) (c : Char) : Int :=
  jsIndexOfGo c l 0

/-- Split `l` at the first occurrence of `pat`, returning the text before
and after the occurrence. -/
def splitOnFirst (pat : Str) : Str → Option (Str × Str)
  | [] => if pat = [] then some ([], []) else none
  | c :: rest =>
    if decide (pat <+: c :: rest) then some ([], (c :: rest).drop pat.length)
    else
      match splitOnFirst pat rest with
      | some (b, a) => some (c :: b, a)
      | none => none

/-- The `GetSubstitution` step of JavaScript `String.prototype.replace` for
a string (capture-free) pattern: in the replacement text, `$$` inserts `$`,
`$&` the matched text, a dollar followed by the code unit 96 the text
before the match, `$'` the text after the match; any other `$` is literal. -/
def substGo (matched before after : Str) : Str → Str
  | [] => []
  | c :: r =>
    if c = '$' then
      match r with
      | [] => [c]
      | d :: r2 =>
        if d = '$' then '$' :: substGo matched before after r2
        else if d = '&' then matched ++ substGo matched before after r2
        else if d = Char.ofNat 96 then before ++ substGo matched before after r2
        else if d = Char.ofNat 39 then after ++ substGo matched before after r2
        else c :: d :: substGo matched before after r2
    else c :: substGo matched before after r

/-- JavaScript `str.replace(pat, repl)` with a string pattern: replace the
first occurrence of `pat`, applying the `$`-substitution rules to `repl`;
no occurrence leaves `str` unchanged. -/
def jsReplaceFirst (l pat repl : Str) : Str :=
  match splitOnFirst pat l with
  | none => l
  | some (b, a) => b ++ substGo pat b a repl ++ a

/- ### Data model (main.ts lines 15-24) -/

inductive Role where
  | user
  | assistant
  | system
deriving DecidableEq

structure ChatMessage where
  role : Role
  content : Str
deriving DecidableEq

structure ChatContext where
  provider : Option Str
  model : Option Str
  system : Option Str
deriving DecidableEq

structure Settings where
  selectedProvider : Str
  openaiApiKey : Str
  openaiModel : Str
  anthropicApiKey : Str
  anthropicModel : Str
  geminiApiKey : Str
  geminiModel : Str
  systemPrompt : Str
deriving DecidableEq

/-- JavaScript `a || b` on an optional string (empty string is falsy). -/
def jsOr (a : Option Str) (b : Str) : Str :=
  match a with
  | some s => if s = [] then b else s
  | none => b

/-- JavaScript truthiness of an optional string field. -/
def optTruthy : Option Str → Bool
  | none => false
  | some s => !(s = [])

/- ### Transcript parser (main.ts `parseMessages`, lines 270-308) -/

/-- Greedy matcher for the repetition `(?:\s*_){2,}` of the separator
regex: starting in `l`, consume whitespace-then-underscore groups as long
as possible; return the number of underscores consumed and the remainder
right after the last consumed underscore (`last`). -/
def sepGroupsGo : Str → Nat → Str → Nat × Str
  | [], n, last => (n, last)
  | c :: rest, n, last =>
    if c = '_' then sepGroupsGo rest (n + 1) rest
    else if isWs c then sepGroupsGo rest n last
    else (n, last)

/-- Match of the separator regex `_(?:\s*_){2,}` at the head of `l`:
`some rem` gives the text after the match. -/
def sepMatch : Str → Option Str
  | [] => none
  | c :: rest =>
    if c = '_' then
      match sepGroupsGo rest 0 rest with
      | (n, rem) => if 2 ≤ n then some rem else none
    else none

/-- Does the separator regex match anywhere in `l`? -/
def hasSepMatch : Str → Bool
  | [] => false
  | c :: rest => (sepMatch (c :: rest)).isSome || hasSepMatch rest

/-- Fuelled worker for `String.prototype.split` on the separator regex:
scan left to right, emitting the segment accumulated so far whenever the
separator matches.  Every separator match consumes at least three
characters, so fuel `length + 1` suffices. -/
def splitGo : Nat → Str → Str → List Str
  | 0, l, acc => [acc.reverse ++ l]
  | _ + 1, [], acc => [acc.reverse]
  | fuel + 1, c :: rest, acc =>
    match sepMatch (c :: rest) with
    | some rem => acc.reverse :: splitGo fuel rem []
    | none => splitGo fuel rest (c :: acc)

/-- `text.split(/_(?:\s*_){2,}/)` of main.ts line 277. -/
def splitSeps (text : Str) : List Str :=
  splitGo (text.length + 1) text []

def aiMarker : Str := s2l "ai::"

/-- Scan for the first non-word character, returning the remainder just
after it (the lazy `.*?[^\w]` step of the fallback regex; the lazy run
stops at the first non-word character, so the no-newline restriction of
`.` can never bite: every character the run consumes is a word
character). -/
def scanNonWord : Str → Option Str
  | [] => none
  | c :: r => if isWordChar c then scanNonWord r else some r

/-- `part.replace(/^ai::.*?[^\w]/, '')` of main.ts line 297: if `part`
starts with the marker and a non-word character follows somewhere, drop
everything through the first such character; otherwise the regex does not
match and `part` is unchanged. -/
def stripAiFallback (l : Str) : Str :=
  if decide (aiMarker <+: l) then
    match scanNonWord (l.drop 4) with
    | some rest => rest
    | none => l
  else l

/-- Modelled from the spec: the fallback stripping rule stated in §4.1 of
the specification — "content = the segment with the pattern 'from the
marker through the first non-word character' stripped" where the stripped
pattern is "marker + greedy-shortest run of characters up to and including
the first character that is not a letter/digit/underscore".  Written from
the spec's words, to be compared with `stripAiFallback`, which is written
from the code's regex. -/
def specFallbackStrip (l : Str) : Str :=
  if decide (aiMarker <+: l) then
    match (l.drop 4).findIdx? (fun c => !isWordChar c) with
    | some j => (l.drop 4).drop (j + 1)
    | none => l
  else l

/-- `parseMessages` of main.ts lines 270-308. -/
def parseMessages (text : Str) : List ChatMessage :=
  (splitSeps text).filterMap fun part0 =>
    let part := trim part0
    if part = [] then none
    else
      let isAssistant := containsSub part aiMarker
      let content :=
        if isAssistant then
          let newlineIndex := jsIndexOf part '\n'
          if newlineIndex > 0 then trim (part.drop (newlineIndex.toNat + 1))
          else trim (stripAiFallback part)
        else part
      some ⟨if isAssistant then Role.assistant else Role.user, content⟩

/- ### Directive processor (main.ts `processNoteCreation`, lines 221-268) -/

structure Finding where
  fullMatch : Str
  name : Str
  body : Str
deriving DecidableEq

def cnOpen : Str := s2l "<create-note name=\""

def cnClose : Str := s2l "</create-note>"

/-- Match of `/<create-note name="([^"]+)">([\s\S]*?)<\/create-note>/` at
the head of `l`: the literal opening, a maximal nonempty run of non-quote
characters (`[^"]+` is greedy and cannot backtrack usefully here), the
literal `">` and a lazy body ending at the first `</create-note>`. -/
def matchCNAt (l : Str) : Option (Finding × Str) :=
  if decide (cnOpen <+: l) then
    let r1 := l.drop cnOpen.length
    let name := r1.takeWhile (fun c => !(c = '"'))
    if name = [] then none
    else
      match r1.drop name.length with
      | '"' :: '>' :: r3 =>
        match splitOnFirst cnClose r3 with
        | some (body, rem) =>
          some (⟨cnOpen ++ name ++ s2l "\">" ++ body ++ cnClose, name, body⟩, rem)
        | none => none
      | _ => none
  else none

/-- Fuelled global scan of the create-note regex (the `while regex.exec`
loop of main.ts lines 227-233): every match consumes at least one
character, so fuel `length + 1` suffices. -/
def findCNGo : Nat → Str → List Finding
  | 0, _ => []
  | _ + 1, [] => []
  | fuel + 1, c :: rest =>
    match matchCNAt (c :: rest) with
    | some (f, rem) => f :: findCNGo fuel rem
    | none => findCNGo fuel rest

def findCN (text : Str) : List Finding :=
  findCNGo (text.length + 1) text

/-- The document store: an association list from vault path to file
content (`getAbstractFileByPath` / `create` / `append` of the Obsidian
vault). -/
abbrev Vault := List (Str × Str)

def vaultGet : Vault → Str → Option Str
  | [], _ => none
  | (p, c) :: rest, path => if p = path then some c else vaultGet rest path

def vaultCreate (v : Vault) (path content : Str) : Vault :=
  v ++ [(path, content)]

def vaultSet : Vault → Str → Str → Vault
  | [], _, _ => []
  | (p, c) :: rest, path, content =>
    if p = path then (p, content) :: rest else (p, c) :: vaultSet rest path content

/-- Target path of a directive (main.ts lines 241-243): the containing
folder of the current file, with the root folder `/` mapped to a bare
filename. -/
def directivePath (parentPath name : Str) : Str :=
  let fileName := name ++ s2l ".md"
  if parentPath = s2l "/" then fileName else parentPath ++ s2l "/" ++ fileName

def directiveLink (name : Str) : Str :=
  s2l "[[" ++ name ++ s2l "]]"

/-- The store mutation one directive performs on success (main.ts lines
246-256): append `"\n" ++ body` when the target exists, else create it
with `body` as content. -/
def mutateStep (parentPath : Str) (v : Vault) (f : Finding) : Vault :=
  let path := directivePath parentPath f.name
  match vaultGet v path with
  | some old => vaultSet v path (old ++ '\n' :: f.body)
  | none => vaultCreate v path f.body

/-- The text rewrite one directive performs on success (main.ts line 259):
replace the first occurrence of its matched text with `[[name]]`. -/
def rewriteStep (text : Str) (f : Finding) : Str :=
  jsReplaceFirst text f.fullMatch (directiveLink f.name)

/-- The `for (const item of findings)` loop of main.ts lines 237-265.  The
oracle lists the I/O outcome of each successive store mutation attempt
(`true` = the awaited `vault.append`/`vault.create` returns, `false` = it
throws); an exhausted oracle means failure.  On failure the `catch` arm
runs: the store is unchanged and the replacement on line 259 is skipped. -/
def processGo (parentPath : Str) : List Finding → Str → Vault → List Bool → Str × Vault
  | [], text, vault, _ => (text, vault)
  | f :: fs, text, vault, oracle =>
    let ok := oracle.headD false
    if ok then
      processGo parentPath fs (rewriteStep text f) (mutateStep parentPath vault f) oracle.tail
    else
      processGo parentPath fs text vault oracle.tail

/-- `processNoteCreation` of main.ts lines 221-268: collect all matches
first, then process them in order. -/
def processNoteCreation (parentPath : Str) (vault : Vault) (oracle : List Bool) (text : Str) :
    Str × Vault :=
  processGo parentPath (findCN text) text vault oracle

/-- The findings whose mutation attempt succeeds, given the outcome
oracle (aligned with the oracle consumption of `processGo`). -/
def selectOk : List Finding → List Bool → List Finding
  | [], _ => []
  | _ :: fs, [] => selectOk fs []
  | f :: fs, b :: os => if b then f :: selectOk fs os else selectOk fs os

/- ### Context enricher (main.ts `processMessageLinks` lines 336-368 and
`getProjectContext` lines 310-334) -/

/-- What the host link resolver returns for a link path: the target file's
basename and extension (`getFirstLinkpathDest`). -/
structure DestFile where
  basename : Str
  ext : Str
deriving DecidableEq

/-- Match of the wiki-link regex `\[\[([^\]|]+)(?:\|[^\]]+)?\]\]` at the
head of `l`, returning the captured link path and the remainder. -/
def matchWikiAt : Str → Option (Str × Str)
  | '[' :: '[' :: rest =>
    let run1 := rest.takeWhile (fun c => !(c = ']') && !(c = '|'))
    if run1 = [] then none
    else
      match rest.drop run1.length with
      | ']' :: ']' :: rem => some (run1, rem)
      | '|' :: r2 =>
        let run2 := r2.takeWhile (fun c => !(c = ']'))
        if run2 = [] then none
        else
          match r2.drop run2.length with
          | ']' :: ']' :: rem => some (run1, rem)
          | _ => none
      | _ => none
  | _ => none

/-- Match of the inline-link regex `\[([^\]]+)\]\(([^)]+)\)` at the head
of `l`, returning the captured target (the second group) and the
remainder. -/
def matchMdAt : Str → Option (Str × Str)
  | '[' :: rest =>
    let run1 := rest.takeWhile (fun c => !(c = ']'))
    if run1 = [] then none
    else
      match rest.drop run1.length with
      | ']' :: '(' :: r2 =>
        let run2 := r2.takeWhile (fun c => !(c = ')'))
        if run2 = [] then none
        else
          match r2.drop run2.length with
          | ')' :: rem => some (run2, rem)
          | _ => none
      | _ => none
  | _ => none

/-- Fuelled global scan of a link regex over the original content (the
`while (match = regex.exec(content))` loops of main.ts lines 348-353),
returning the captured link paths in match order. -/
def scanLinksGo (matchAt : Str → Option (Str × Str)) : Nat → Str → List Str
  | 0, _ => []
  | _ + 1, [] => []
  | fuel + 1, c :: rest =>
    match matchAt (c :: rest) with
    | some (p, rem) => p :: scanLinksGo matchAt fuel rem
    | none => scanLinksGo matchAt fuel rest

def scanWiki (content : Str) : List Str :=
  scanLinksGo matchWikiAt (content.length + 1) content

def scanMd (content : Str) : List Str :=
  scanLinksGo matchMdAt (content.length + 1) content

/-- The wrapper appended for one resolved link (main.ts line 363). -/
def linkWrapper (basename fileContent : Str) : Str :=
  '\n' :: s2l "<existing-note name=\"" ++ basename ++ s2l "\">" ++ fileContent ++
  s2l "\n</existing-note>\n"

/-- `processMessageLinks` of main.ts lines 336-368.  `resolve` models
`metadataCache.getFirstLinkpathDest(linkpath, sourceFile.path)` and `read`
models `vault.read`; both link grammars are scanned over the original
content and each resolved plain-text target appends its wrapped content. -/
def processMessageLinks (resolve : Str → Option DestFile) (read : DestFile → Str)
    (content : Str) : Str :=
  let ms := scanWiki content ++ scanMd content
  ms.foldl
    (fun acc m =>
      match resolve m with
      | some f =>
        if f.ext = s2l "md" || f.ext = s2l "txt" then acc ++ linkWrapper f.basename (read f)
        else acc
      | none => acc)
    content

/-- What one link path contributes to the enriched content (nothing when
the target does not resolve or is not a plain-text file). -/
def linkContribution (resolve : Str → Option DestFile) (read : DestFile → Str) (m : Str) : Str :=
  match resolve m with
  | some f =>
    if f.ext = s2l "md" || f.ext = s2l "txt" then linkWrapper f.basename (read f)
    else []
  | none => []

/-- A sibling file in the current file's folder, with the content
`vault.read` returns for it.  Non-file children (folders) of the parent
are not listed: `getProjectContext` skips them via `instanceof TFile`. -/
structure SibFile where
  basename : Str
  path : Str
  ext : Str
  content : Str
deriving DecidableEq

/-- The current file together with the collaborator data the pipeline
reads for it: frontmatter overrides and the sibling files of its folder. -/
structure ViewFile where
  basename : Str
  path : Str
  siblings : List SibFile
  fmProvider : Option Str
  fmModel : Option Str
  fmSystem : Option Str
deriving DecidableEq

/-- The wrapper `getProjectContext` builds per sibling (main.ts line 329;
unlike `linkWrapper` it has a newline right after the opening tag). -/
def projWrapper (basename content : Str) : Str :=
  '\n' :: s2l "<existing-note name=\"" ++ basename ++ s2l "\">\n" ++ content ++
  s2l "\n</existing-note>\n"

/-- `getProjectContext` of main.ts lines 310-334: empty unless the file's
basename starts with `Project `; otherwise every sibling plain-text file
other than the file itself is read and wrapped. -/
def getProjectContext (f : ViewFile) : Str :=
  if !(decide (s2l "Project " <+: f.basename)) then []
  else
    (f.siblings.filter fun c =>
        !(c.basename = f.basename || c.path = f.path) &&
        (c.ext = s2l "md" || c.ext = s2l "txt")).foldl
      (fun acc c => acc ++ projWrapper c.basename c.content) []

/- ### Pipeline front half (main.ts `handleChatCommand`, lines 138-195) -/

/-- The part of `handleChatCommand` that runs before the network call:
reject when the trimmed document is empty (line 142), parse, unshift the
Note Title turn and, when it applies, the Project Context turn (lines
149-172), then expand links in every user turn (lines 176-180).  Returns
`none` when the command returns early with the `No text found` notice and
otherwise `some` of the message list handed to `callAI`. -/
def handleChatPrepare (view : Option ViewFile) (resolve : Str → Option DestFile)
    (read : DestFile → Str) (text : Str) : Option (List ChatMessage) :=
  if trim text = [] then none
  else
    let messages := parseMessages text
    let messages :=
      match view with
      | none => messages
      | some f =>
        let m1 : List ChatMessage := ⟨Role.user, s2l "Note Title: " ++ f.basename⟩ :: messages
        let ctx := getProjectContext f
        if ctx = [] then m1
        else ⟨Role.user, s2l "Project Context:\n" ++ ctx⟩ :: m1
    some (messages.map fun m =>
      if m.role = Role.user && view.isSome then
        { m with content := processMessageLinks resolve read m.content }
      else m)

/- ### Provider gateway (main.ts `callAI` and the three adapters,
lines 379-514) -/

structure ChatError where
  msg : Str
deriving DecidableEq

def unknownProviderMsg : Str := s2l "Unknown provider selected."

def openaiKeyMsg : Str := s2l "OpenAI API Key not set."

def anthropicKeyMsg : Str := s2l "Anthropic API Key not set."

def geminiKeyMsg : Str := s2l "Gemini API Key not set."

/-- Modelling artifact for a JavaScript `TypeError` raised by indexing an
empty array and dereferencing the `undefined` result (e.g.
`data.choices[0].message` on an empty `choices`). -/
def jsTypeErrorMsg : Str := s2l "TypeError: cannot read properties of undefined"

def natChars (n : Nat) : Str := (Nat.repr n).data

def openaiFailMsg (status : Nat) (text : Str) : Str :=
  s2l "OpenAI request failed: " ++ natChars status ++ s2l " " ++ text ++ s2l " "

def anthropicFailMsg (status : Nat) (text : Str) : Str :=
  s2l "Anthropic request failed: " ++ natChars status ++ s2l " " ++ text ++ s2l " "

def geminiFailMsg (status : Nat) (text : Str) : Str :=
  s2l "Gemini request failed: " ++ natChars status ++ s2l " " ++ text

/-- `resolveSystem` models main.ts lines 384-392: a truthy override
starting with `+++` is appended (without the sentinel, trimmed) after the
process-wide default prompt; a falsy override falls back to the default
prompt when that is itself truthy; otherwise the override stands. -/
def resolveSystem (defaultPrompt : Str) (sys : Option Str) : Option Str :=
  if optTruthy sys && decide (s2l "+++" <+: sys.getD []) then
    some (defaultPrompt ++ '\n' :: trim ((sys.getD []).drop 3))
  else if !optTruthy sys && !(defaultPrompt = []) then some defaultPrompt
  else sys

structure OpenAIBody where
  model : Str
  messages : List ChatMessage
deriving DecidableEq

structure AnthropicBody where
  model : Str
  maxTokens : Nat
  messages : List ChatMessage
  system : Option Str
deriving DecidableEq

structure GeminiPartReq where
  text : Str
deriving DecidableEq

structure GeminiContentReq where
  role : Str
  parts : List GeminiPartReq
deriving DecidableEq

structure GeminiBodyReq where
  contents : List GeminiContentReq
  systemInstruction : Option (List GeminiPartReq)
deriving DecidableEq

/-- The vendor request each adapter would hand to `requestUrl`; building a
`Request` performs no network I/O.  `authValue` of the openai variant is
the `Authorization` header value; the anthropic variant carries the
`x-api-key` header value; the gemini variant carries the key and model
embedded in the URL. -/
inductive Request where
  | openai (authValue : Str) (body : OpenAIBody)
  | anthropic (apiKey : Str) (body : AnthropicBody)
  | gemini (apiKey : Str) (model : Str) (body : GeminiBodyReq)
deriving DecidableEq

/-- The message list a built request carries (for the two message-array
adapters). -/
def Request.msgList : Request → List ChatMessage
  | .openai _ b => b.messages
  | .anthropic _ b => b.messages
  | .gemini _ _ _ => []

/-- `callOpenAI` up to the network call (main.ts lines 405-418).  JS array
aliasing is made explicit: the heap maps references to arrays, `msgsRef`
is the caller's `messages` array, `next` is the next fresh reference.
`const messagesToSend = [...messages]` allocates a copy at `next`, and the
conditional `unshift` updates that copy in place.  The result carries the
final heap, the next fresh reference and the request that would be sent. -/
def buildOpenAI (heap : Nat → List ChatMessage) (next msgsRef : Nat) (s : Settings)
    (ov : ChatContext) : Except ChatError ((Nat → List ChatMessage) × Nat × Request) :=
  if s.openaiApiKey = [] then .error ⟨openaiKeyMsg⟩
  else
    let model := jsOr ov.model s.openaiModel
    let heap1 := fun j => if j = next then heap msgsRef else heap j
    let heap2 :=
      if optTruthy ov.system then
        fun j => if j = next then ⟨Role.system, ov.system.getD []⟩ :: heap1 next else heap1 j
      else heap1
    .ok (heap2, next + 1,
      .openai (s2l "Bearer " ++ s.openaiApiKey ++ s2l " ") ⟨model, heap2 next⟩)

/-- `callAnthropic` up to the network call (main.ts lines 438-462): the
`system` top-level field is present only when the override is truthy, and
the message list is passed through unchanged. -/
def buildAnthropic (s : Settings) (messages : List ChatMessage) (ov : ChatContext) :
    Except ChatError Request :=
  if s.anthropicApiKey = [] then .error ⟨anthropicKeyMsg⟩
  else
    let model := jsOr ov.model s.anthropicModel
    .ok (.anthropic s.anthropicApiKey
      ⟨model, 1024, messages, if optTruthy ov.system then some (ov.system.getD []) else none⟩)

/-- `callGemini` up to the network call (main.ts lines 472-500): each turn
maps to role `model` (assistant) or `user` with a single text part, and
`systemInstruction` is a top-level structured field when the override is
truthy. -/
def buildGemini (s : Settings) (messages : List ChatMessage) (ov : ChatContext) :
    Except ChatError Request :=
  if s.geminiApiKey = [] then .error ⟨geminiKeyMsg⟩
  else
    let model := jsOr ov.model s.geminiModel
    let contents := messages.map fun m =>
      GeminiContentReq.mk (if m.role = Role.assistant then s2l "model" else s2l "user")
        [⟨m.content⟩]
    .ok (.gemini s.geminiApiKey model
      ⟨contents, if optTruthy ov.system then some [⟨ov.system.getD []⟩] else none⟩)

/-- `callAI` of main.ts lines 379-403 up to the network call: resolve the
effective provider and system instruction, then dispatch to the matching
adapter's request builder; an unknown provider identifier throws.  The
caller's `messages` array lives at heap reference 0 for the openai
adapter. -/
def callAI (s : Settings) (messages : List ChatMessage) (ov : ChatContext) :
    Except ChatError Request :=
  let provider := jsOr ov.provider s.selectedProvider
  let ov' := { ov with system := resolveSystem s.systemPrompt ov.system }
  if provider = s2l "openai" then
    (buildOpenAI (fun _ => messages) 1 0 s ov').map fun r => r.2.2
  else if provider = s2l "anthropic" then buildAnthropic s messages ov'
  else if provider = s2l "gemini" then buildGemini s messages ov'
  else .error ⟨unknownProviderMsg⟩

/- ### Adapter response handling (main.ts lines 430-436, 464-470,
502-514) -/

/-- The awaited `requestUrl` result: HTTP status, raw body text and the
parsed JSON body. -/
structure HttpResp (β : Type) where
  status : Nat
  text : Str
  json : β
deriving DecidableEq

structure OAIMessage where
  content : Str
deriving DecidableEq

structure OAIChoice where
  message : OAIMessage
deriving DecidableEq

structure OpenAIRespBody where
  choices : List OAIChoice
deriving DecidableEq

structure AnthContent where
  text : Str
deriving DecidableEq

structure AnthropicRespBody where
  content : List AnthContent
deriving DecidableEq

structure GPart where
  text : Str
deriving DecidableEq

/-- `parts` is optional: absent models a missing/null field (falsy), while
`some []` models a present empty array (truthy in JS). -/
structure GContent where
  parts : Option (List GPart)
deriving DecidableEq

structure GCandidate where
  content : Option GContent
deriving DecidableEq

structure GeminiRespBody where
  candidates : Option (List GCandidate)
deriving DecidableEq

def noResponseSentinel : Str := s2l "(No response text found)"

/-- Response handling of `callOpenAI` (main.ts lines 430-435). -/
def handleOpenAI (r : HttpResp OpenAIRespBody) : Except ChatError Str :=
  if 400 ≤ r.status then .error ⟨openaiFailMsg r.status r.text⟩
  else
    match r.json.choices with
    | ch :: _ => .ok ch.message.content
    | [] => .error ⟨jsTypeErrorMsg⟩

/-- Response handling of `callAnthropic` (main.ts lines 464-469). -/
def handleAnthropic (r : HttpResp AnthropicRespBody) : Except ChatError Str :=
  if 400 ≤ r.status then .error ⟨anthropicFailMsg r.status r.text⟩
  else
    match r.json.content with
    | c :: _ => .ok c.text
    | [] => .error ⟨jsTypeErrorMsg⟩

/-- Response handling of `callGemini` (main.ts lines 502-513): the
truthiness chain `candidates && candidates.length > 0 &&
candidates[0].content && candidates[0].content.parts` guards the
extraction, and any falsy link yields the fixed sentinel; a present but
empty `parts` array passes the guard and indexing it throws. -/
def handleGemini (r : HttpResp GeminiRespBody) : Except ChatError Str :=
  if 400 ≤ r.status then .error ⟨geminiFailMsg r.status r.text⟩
  else
    match r.json.candidates with
    | some (c :: _) =>
      match c.content with
      | some ct =>
        match ct.parts with
        | some (p :: _) => .ok p.text
        | some [] => .error ⟨jsTypeErrorMsg⟩
        | none => .ok noResponseSentinel
      | none => .ok noResponseSentinel
    | _ => .ok noResponseSentinel

/-! ## Helper lemmas -/

theorem append_dropWhile (p : Char → Bool) (l : Str) : ∃ t, l = t ++ l.dropWhile p := by
  induction l with
  | nil => exact ⟨[], rfl⟩
  | cons a r ih =>
    by_cases h : p a
    · obtain ⟨t, ht⟩ := ih
      exact ⟨a :: t, by rw [List.dropWhile_cons_of_pos h]; simpa using ht⟩
    · exact ⟨[], by rw [List.dropWhile_cons_of_neg h]; rfl⟩

theorem trim_infix (l : Str) : ∃ s t, s ++ trim l ++ t = l := by
  obtain ⟨s, hs⟩ := append_dropWhile isWs l
  obtain ⟨u, hu⟩ := append_dropWhile isWs (l.dropWhile isWs).reverse
  refine ⟨s, u.reverse, ?_⟩
  have hm : l.dropWhile isWs = trim l ++ u.reverse := by
    unfold trim
    calc l.dropWhile isWs = (l.dropWhile isWs).reverse.reverse := by simp
    _ = (u ++ (l.dropWhile isWs).reverse.dropWhile isWs).reverse := by rw [← hu]
    _ = ((l.dropWhile isWs).reverse.dropWhile isWs).reverse ++ u.reverse := by
        rw [List.reverse_append]
  rw [List.append_assoc, ← hm, ← hs]

theorem containsSub_mono (l l' pat : Str) (h : l <:+: l')
    (hc : containsSub l pat = true) : containsSub l' pat = true := by
  have h1 : pat <:+: l := by simpa [containsSub] using hc
  simpa [containsSub] using h1.trans h

theorem jsIndexOfGo_not_mem (c : Char) (l : Str) (k : Nat) (h : c ∉ l) :
    jsIndexOfGo c l k = -1 := by
  induction l generalizing k with
  | nil => rfl
  | cons a r ih =>
    simp only [List.mem_cons, not_or] at h
    simp only [jsIndexOfGo]
    rw [if_neg (fun hac => h.1 hac.symm), ih (k + 1) h.2]

theorem jsIndexOf_not_mem (l : Str) (c : Char) (h : c ∉ l) : jsIndexOf l c = -1 :=
  jsIndexOfGo_not_mem c l 0 h

theorem splitGo_no_sep : ∀ (fuel : Nat) (l acc : Str), hasSepMatch l = false →
    l.length ≤ fuel → splitGo fuel l acc = [acc.reverse ++ l] := by
  intro fuel
  induction fuel with
  | zero => intro l acc _ _; rfl
  | succ n ih =>
    intro l acc h hlen
    cases l with
    | nil => simp [splitGo]
    | cons c rest =>
      simp only [hasSepMatch, Bool.or_eq_false_iff] at h
      have hnone : sepMatch (c :: rest) = none := by
        cases hs : sepMatch (c :: rest) with
        | none => rfl
        | some rem => simp [hs] at h
      simp only [splitGo, hnone]
      rw [ih rest (c :: acc) h.2 (by simpa using Nat.le_of_succ_le_succ hlen)]
      simp

theorem splitSeps_no_sep (text : Str) (h : hasSepMatch text = false) :
    splitSeps text = [text] := by
  unfold splitSeps
  rw [splitGo_no_sep (text.length + 1) text [] h (Nat.le_succ _)]
  simp

theorem scanNonWord_eq_findIdx (m : Str) :
    scanNonWord m = (m.findIdx? fun c => !isWordChar c).map fun j => m.drop (j + 1) := by
  induction m with
  | nil => simp [scanNonWord, List.findIdx?]
  | cons a r ih =>
    by_cases h : isWordChar a
    · simp [scanNonWord, h, List.findIdx?_cons, ih, Option.map_map]
      rfl
    · simp [scanNonWord, h, List.findIdx?_cons]

theorem stripAi_eq_spec (l : Str) : stripAiFallback l = specFallbackStrip l := by
  unfold stripAiFallback specFallbackStrip
  by_cases h : aiMarker <+: l
  · rw [if_pos (by simpa using h), if_pos (by simpa using h), scanNonWord_eq_findIdx]
    cases hf : (l.drop 4).findIdx? fun c => !isWordChar c with
    | none => simp
    | some j => simp
  · rw [if_neg (by simpa using h), if_neg (by simpa using h)]

/-! ## Claim C1 -/

/-- Claim C1 (amended): for a separator-free single-line assistant segment
(no newline in the trimmed text, marker contained), `parse` yields one
Assistant turn whose content is the trimmed segment with the fallback rule
of the spec applied — the marker plus the shortest run of characters up to
and including the first character that is not a letter/digit/underscore is
stripped — and trimmed.  The spec's worked example is wrong: for
`"ai::gpt-9 Hello"` the first non-word character after the marker is the
hyphen, so the content is `"9 Hello"`, not `"Hello"` (see the
counterexample). -/
theorem parse_single_line_fallback (text : Str)
    (hsep : hasSepMatch text = false)
    (hai : containsSub (trim text) aiMarker = true)
    (hnl : '\n' ∉ trim text) :
    parseMessages text = [⟨Role.assistant, trim (specFallbackStrip (trim text))⟩] := by
  unfold parseMessages
  rw [splitSeps_no_sep text hsep]
  have hne : ¬(trim text = []) := by
    intro h0
    rw [h0] at hai
    exact absurd hai (by decide)
  have hidx : jsIndexOf (trim text) '\n' = -1 := jsIndexOf_not_mem _ _ hnl
  simp only [List.filterMap, hidx, hne, hai, if_false, if_true, stripAi_eq_spec]
  norm_num

/-- Witness for C1 at the spec's own example segment. -/
theorem parse_single_line_fallback_witness :
    hasSepMatch (s2l "ai::gpt-9 Hello") = false ∧
    containsSub (trim (s2l "ai::gpt-9 Hello")) aiMarker = true ∧
    '\n' ∉ trim (s2l "ai::gpt-9 Hello") ∧
    parseMessages (s2l "ai::gpt-9 Hello") = [⟨Role.assistant, s2l "9 Hello"⟩] :=
  ⟨by decide, by decide, by decide,
    (parse_single_line_fallback (s2l "ai::gpt-9 Hello") (by decide) (by decide)
      (by decide)).trans (by decide)⟩

/-- Counterexample for C1 as stated: the segment `"ai::gpt-9 Hello"` does
not parse to content `"Hello"`; the fallback rule strips through the
hyphen of `gpt-9`, leaving `"9 Hello"`. -/
theorem parse_fallback_example_counterexample :
    parseMessages (s2l "ai::gpt-9 Hello") = [⟨Role.assistant, s2l "9 Hello"⟩] ∧
    parseMessages (s2l "ai::gpt-9 Hello") ≠ [⟨Role.assistant, s2l "Hello"⟩] := by
  decide

/-! ## Claim C2 -/

/-- Claim C2 (amended): for every input text containing no separator run
and not containing the marker `ai::`, `parse` returns exactly one turn of
role User whose content equals the trimmed input, or zero turns when the
trimmed input is empty.  (Without the marker restriction the claim fails:
a separator-free text containing `ai::` is classified as an Assistant
turn — see the counterexample.) -/
theorem parseMessages_no_separator_user (text : Str)
    (hsep : hasSepMatch text = false)
    (hai : containsSub text aiMarker = false) :
    parseMessages text = if trim text = [] then [] else [⟨Role.user, trim text⟩] := by
  unfold parseMessages
  rw [splitSeps_no_sep text hsep]
  by_cases he : trim text = []
  · simp [List.filterMap, he]
  · have hai2 : containsSub (trim text) aiMarker = false := by
      cases hc : containsSub (trim text) aiMarker
      · rfl
      · obtain ⟨s, t, hst⟩ := trim_infix text
        rw [containsSub_mono (trim text) text aiMarker ⟨s, t, hst⟩ hc] at hai
        exact absurd hai (by decide)
    simp [List.filterMap, he, hai2]

/-- Witness for C2 at a plain text and at a blank text. -/
theorem parseMessages_no_separator_user_witness :
    parseMessages (s2l "hello world") = [⟨Role.user, s2l "hello world"⟩] ∧
    parseMessages (s2l "  ") = [] :=
  ⟨(parseMessages_no_separator_user (s2l "hello world") (by decide) (by decide)).trans
      (by decide),
    (parseMessages_no_separator_user (s2l "  ") (by decide) (by decide)).trans (by decide)⟩

/-- Counterexample for C2 as stated: `"ai:: x"` contains no separator run,
yet it parses to a single Assistant turn with content `"x"`, not a User
turn carrying the trimmed input. -/
theorem parse_no_separator_counterexample :
    hasSepMatch (s2l "ai:: x") = false ∧
    parseMessages (s2l "ai:: x") = [⟨Role.assistant, s2l "x"⟩] ∧
    parseMessages (s2l "ai:: x") ≠ [⟨Role.user, trim (s2l "ai:: x")⟩] := by
  decide

/-! ## Claim C3 -/

theorem processGo_fold (p : Str) : ∀ (fs : List Finding) (text : Str) (vault : Vault)
    (oracle : List Bool),
    processGo p fs text vault oracle =
      ((selectOk fs oracle).foldl rewriteStep text,
       (selectOk fs oracle).foldl (mutateStep p) vault) := by
  intro fs
  induction fs with
  | nil => intro text vault oracle; rfl
  | cons f fs ih =>
    intro text vault oracle
    cases oracle with
    | nil => simpa [processGo, selectOk] using ih text vault []
    | cons b os =>
      cases b
      · simpa [processGo, selectOk] using ih text vault os
      · simpa [processGo, selectOk] using ih (rewriteStep text f) (mutateStep p vault f) os

/-- Claim C3 (amended): directive processing collects all matches first,
then handles them in encounter order; a directive's mutation attempt is
made regardless of earlier directives' failures.  A directive whose
mutation succeeds replaces the first occurrence of its matched text in the
current rewritten string with `[[X]]` (which is its own span whenever no
earlier identical span precedes it) and applies its store mutation; a
directive whose mutation fails changes neither the text nor the store.
Formally, the result decouples into a rewrite fold and a store fold over
exactly the successful directives: text replacement happens only for
successful directives and one directive's failure does not prevent the
remaining directives from being processed.  The claim's stronger
per-own-span statement is false when two directives have identical matched
text (see the counterexample). -/
theorem processNoteCreation_success_selection (parentPath : Str) (vault : Vault)
    (oracle : List Bool) (text : Str) :
    processNoteCreation parentPath vault oracle text =
      ((selectOk (findCN text) oracle).foldl rewriteStep text,
       (selectOk (findCN text) oracle).foldl (mutateStep parentPath) vault) :=
  processGo_fold parentPath (findCN text) text vault oracle

/-- Counterexample for C3 as stated: with two identical directives where
the first mutation fails and the second succeeds, the successful second
directive's rewrite replaces the FIRST occurrence — the failed directive's
span — so the failed directive's own span does not stay untouched. -/
theorem processNoteCreation_counterexample :
    (processNoteCreation (s2l "/") [] [false, true]
        (s2l "p<create-note name=\"X\">b</create-note>m<create-note name=\"X\">b</create-note>s")).1
      = s2l "p[[X]]m<create-note name=\"X\">b</create-note>s" ∧
    (processNoteCreation (s2l "/") [] [false, true]
        (s2l "p<create-note name=\"X\">b</create-note>m<create-note name=\"X\">b</create-note>s")).1
      ≠ s2l "p<create-note name=\"X\">b</create-note>m[[X]]s" := by
  decide

/-! ## Claim C4 -/

/-- Claim C4: each of the three adapters, on a non-success HTTP status
(the code's test is `status >= 400`), raises an error whose message
carries both the status code and the raw response body text, independently
of the parsed body — the body of a non-success response is never parsed as
a successful reply. -/
theorem adapters_surface_failure_status (status : Nat) (text : Str)
    (ob : OpenAIRespBody) (ab : AnthropicRespBody) (gb : GeminiRespBody)
    (h : 400 ≤ status) :
    handleOpenAI ⟨status, text, ob⟩ = .error ⟨openaiFailMsg status text⟩ ∧
    handleAnthropic ⟨status, text, ab⟩ = .error ⟨anthropicFailMsg status text⟩ ∧
    handleGemini ⟨status, text, gb⟩ = .error ⟨geminiFailMsg status text⟩ ∧
    containsSub (openaiFailMsg status text) (natChars status) = true ∧
    containsSub (openaiFailMsg status text) text = true ∧
    containsSub (anthropicFailMsg status text) (natChars status) = true ∧
    containsSub (anthropicFailMsg status text) text = true ∧
    containsSub (geminiFailMsg status text) (natChars status) = true ∧
    containsSub (geminiFailMsg status text) text = true := by
  refine ⟨?_, ?_, ?_, ?_, ?_, ?_, ?_, ?_, ?_⟩
  · unfold handleOpenAI; rw [if_pos h]
  · unfold handleAnthropic; rw [if_pos h]
  · unfold handleGemini; rw [if_pos h]
  · exact decide_eq_true (by
      unfold openaiFailMsg
      exact ⟨s2l "OpenAI request failed: ", s2l " " ++ text ++ s2l " ",
        by simp [List.append_assoc]⟩)
  · exact decide_eq_true (by
      unfold openaiFailMsg
      exact ⟨s2l "OpenAI request failed: " ++ natChars status ++ s2l " ", s2l " ",
        by simp [List.append_assoc]⟩)
  · exact decide_eq_true (by
      unfold anthropicFailMsg
      exact ⟨s2l "Anthropic request failed: ", s2l " " ++ text ++ s2l " ",
        by simp [List.append_assoc]⟩)
  · exact decide_eq_true (by
      unfold anthropicFailMsg
      exact ⟨s2l "Anthropic request failed: " ++ natChars status ++ s2l " ", s2l " ",
        by simp [List.append_assoc]⟩)
  · exact decide_eq_true (by
      unfold geminiFailMsg
      exact ⟨s2l "Gemini request failed: ", s2l " " ++ text, by simp [List.append_assoc]⟩)
  · exact decide_eq_true (by
      unfold geminiFailMsg
      exact ⟨s2l "Gemini request failed: " ++ natChars status ++ s2l " ", [],
        by simp [List.append_assoc]⟩)

/-- Witness for C4 at status 500 with body text `oops`. -/
theorem adapters_surface_failure_status_witness :
    400 ≤ 500 ∧
    handleOpenAI ⟨500, s2l "oops", ⟨[]⟩⟩ = .error ⟨openaiFailMsg 500 (s2l "oops")⟩ ∧
    handleGemini ⟨500, s2l "oops", ⟨none⟩⟩ = .error ⟨geminiFailMsg 500 (s2l "oops")⟩ :=
  ⟨by omega,
    (adapters_surface_failure_status 500 (s2l "oops") ⟨[]⟩ ⟨[]⟩ ⟨none⟩ (by omega)).1,
    (adapters_surface_failure_status 500 (s2l "oops") ⟨[]⟩ ⟨[]⟩ ⟨none⟩ (by omega)).2.2.1⟩

/-! ## Claim C5 -/

/-- Claim C5 (amended): the pipeline invokes dispatch exactly when the
trimmed document text is nonempty — whitespace-only input is rejected with
the `No text found` notice before parsing and before any network call —
and when a file is attached the message list handed to `callAI` contains
at least one turn (the synthesized Note Title turn).  The claim's stronger
statement is false: a document whose parse yields zero turns is not
necessarily rejected — a nonblank document made only of separator
characters (e.g. `"___"`) trims to nonempty text, parses to zero turns and
still reaches dispatch; with no attached file the list handed to `callAI`
is then empty (see the counterexample). -/
theorem handleChat_dispatch_guard (view : Option ViewFile)
    (resolve : Str → Option DestFile) (read : DestFile → Str) (text : Str) :
    (trim text = [] → handleChatPrepare view resolve read text = none) ∧
    (trim text ≠ [] → ∃ msgs, handleChatPrepare view resolve read text = some msgs ∧
      (view.isSome = true → 1 ≤ msgs.length)) := by
  constructor
  · intro h
    unfold handleChatPrepare
    rw [if_pos h]
  · intro h
    unfold handleChatPrepare
    rw [if_neg h]
    refine ⟨_, rfl, ?_⟩
    intro hv
    cases view with
    | none => simp at hv
    | some f =>
      simp only [List.length_map]
      by_cases hctx : getProjectContext f = []
      · simp [hctx]
      · simp [hctx]

/-- Witness for C5: a blank document is rejected; a nonblank document with
an attached file reaches dispatch with at least one turn. -/
theorem handleChat_dispatch_guard_witness :
    handleChatPrepare none (fun _ => none) (fun _ => []) (s2l "  ") = none ∧
    ∃ msgs, handleChatPrepare (some ⟨s2l "N", s2l "N.md", [], none, none, none⟩)
        (fun _ => none) (fun _ => []) (s2l "hi") = some msgs ∧ 1 ≤ msgs.length := by
  constructor
  · exact (handleChat_dispatch_guard none (fun _ => none) (fun _ => []) (s2l "  ")).1
      (by decide)
  · obtain ⟨msgs, hm, hl⟩ :=
      (handleChat_dispatch_guard (some ⟨s2l "N", s2l "N.md", [], none, none, none⟩)
        (fun _ => none) (fun _ => []) (s2l "hi")).2 (by decide)
    exact ⟨msgs, hm, hl rfl⟩

/-- Counterexample for C5 as stated: `"___"` parses to zero turns, yet the
pipeline does not reject it — with no attached file `callAI` is handed an
empty message list, and with an attached file the document is still not
rejected. -/
theorem handleChat_zero_turn_counterexample :
    parseMessages (s2l "___") = [] ∧
    handleChatPrepare none (fun _ => none) (fun _ => []) (s2l "___") = some [] ∧
    handleChatPrepare (some ⟨s2l "N", s2l "N.md", [], none, none, none⟩)
        (fun _ => none) (fun _ => []) (s2l "___") ≠ none := by
  decide

/-! ## Claim C6 -/

/-- Claim C6: dispatch fails with a configuration error, before any
network request is built, when the effective provider (frontmatter
override, else the configured default) is not one of the three known
identifiers, and when the effective provider's API key is not
configured (the empty string). -/
theorem callAI_configuration_errors (s : Settings) (messages : List ChatMessage)
    (ov : ChatContext) :
    (jsOr ov.provider s.selectedProvider ≠ s2l "openai" →
      jsOr ov.provider s.selectedProvider ≠ s2l "anthropic" →
      jsOr ov.provider s.selectedProvider ≠ s2l "gemini" →
      callAI s messages ov = .error ⟨unknownProviderMsg⟩) ∧
    (jsOr ov.provider s.selectedProvider = s2l "openai" → s.openaiApiKey = [] →
      callAI s messages ov = .error ⟨openaiKeyMsg⟩) ∧
    (jsOr ov.provider s.selectedProvider = s2l "anthropic" → s.anthropicApiKey = [] →
      callAI s messages ov = .error ⟨anthropicKeyMsg⟩) ∧
    (jsOr ov.provider s.selectedProvider = s2l "gemini" → s.geminiApiKey = [] →
      callAI s messages ov = .error ⟨geminiKeyMsg⟩) := by
  refine ⟨?_, ?_, ?_, ?_⟩
  · intro h1 h2 h3
    unfold callAI
    rw [if_neg h1, if_neg h2, if_neg h3]
  · intro h1 hk
    unfold callAI
    rw [if_pos h1]
    unfold buildOpenAI
    rw [if_pos hk]
    rfl
  · intro h1 hk
    unfold callAI
    by_cases h0 : jsOr ov.provider s.selectedProvider = s2l "openai"
    · rw [h1] at h0; exact absurd h0 (by decide)
    · rw [if_neg h0, if_pos h1]
      unfold buildAnthropic
      rw [if_pos hk]
  · intro h1 hk
    unfold callAI
    by_cases h0 : jsOr ov.provider s.selectedProvider = s2l "openai"
    · rw [h1] at h0; exact absurd h0 (by decide)
    · by_cases h0' : jsOr ov.provider s.selectedProvider = s2l "anthropic"
      · rw [h1] at h0'; exact absurd h0' (by decide)
      · rw [if_neg h0, if_neg h0', if_pos h1]
        unfold buildGemini
        rw [if_pos hk]

/-- Witness for C6: an unknown provider string and each of the three
providers with an unset key, on otherwise empty settings. -/
theorem callAI_configuration_errors_witness :
    callAI ⟨s2l "cohere", [], [], [], [], [], [], []⟩ [] ⟨none, none, none⟩
      = .error ⟨unknownProviderMsg⟩ ∧
    callAI ⟨s2l "openai", [], [], [], [], [], [], []⟩ [] ⟨none, none, none⟩
      = .error ⟨openaiKeyMsg⟩ ∧
    callAI ⟨s2l "anthropic", [], [], [], [], [], [], []⟩ [] ⟨none, none, none⟩
      = .error ⟨anthropicKeyMsg⟩ ∧
    callAI ⟨s2l "gemini", [], [], [], [], [], [], []⟩ [] ⟨none, none, none⟩
      = .error ⟨geminiKeyMsg⟩ :=
  ⟨(callAI_configuration_errors ⟨s2l "cohere", [], [], [], [], [], [], []⟩ []
      ⟨none, none, none⟩).1 (by decide) (by decide) (by decide),
    (callAI_configuration_errors ⟨s2l "openai", [], [], [], [], [], [], []⟩ []
      ⟨none, none, none⟩).2.1 (by decide) rfl,
    (callAI_configuration_errors ⟨s2l "anthropic", [], [], [], [], [], [], []⟩ []
      ⟨none, none, none⟩).2.2.1 (by decide) rfl,
    (callAI_configuration_errors ⟨s2l "gemini", [], [], [], [], [], [], []⟩ []
      ⟨none, none, none⟩).2.2.2 (by decide) rfl⟩

/-! ## Claim C7 -/

/-- Claim C7: resolving the effective system instruction — a (truthy)
override beginning with the `+++` sentinel does not replace the
process-wide default: the sentinel is stripped and the (trimmed) remainder
is concatenated after the default instruction, separated by a newline; a
(truthy) override without the sentinel is used as-is; with no override the
process-wide default instruction is used. -/
theorem resolveSystem_spec (d : Str) (s : Str) :
    (s ≠ [] → s2l "+++" <+: s →
      resolveSystem d (some s) = some (d ++ '\n' :: trim (s.drop 3))) ∧
    (s ≠ [] → ¬(s2l "+++" <+: s) → resolveSystem d (some s) = some s) ∧
    (resolveSystem d none).getD [] = d := by
  refine ⟨?_, ?_, ?_⟩
  · intro hne hpre
    unfold resolveSystem
    rw [if_pos]
    simp only [optTruthy, Option.getD_some]
    exact (Bool.and_eq_true _ _).mpr ⟨by simp [optTruthy, hne], by simpa using hpre⟩
  · intro hne hpre
    unfold resolveSystem
    rw [if_neg, if_neg]
    · simp only [optTruthy]
      intro hc
      rw [Bool.and_eq_true] at hc
      simp at hc
      exact absurd hc.1 hne
    · simp only [optTruthy, Option.getD_some]
      intro hc
      rw [Bool.and_eq_true] at hc
      exact hpre (by simpa using hc.2)
  · unfold resolveSystem
    simp only [optTruthy, Option.getD_none]
    by_cases hd : d = []
    · simp [hd]
    · simp [hd]

/-- Witness for C7: an appending override, a replacing override and the
no-override fallback. -/
theorem resolveSystem_spec_witness :
    resolveSystem (s2l "base") (some (s2l "+++extra"))
      = some (s2l "base" ++ '\n' :: s2l "extra") ∧
    resolveSystem (s2l "base") (some (s2l "solo")) = some (s2l "solo") ∧
    (resolveSystem (s2l "base") none).getD [] = s2l "base" :=
  ⟨((resolveSystem_spec (s2l "base") (s2l "+++extra")).1 (by decide)
      (by decide)).trans (by decide),
    (resolveSystem_spec (s2l "base") (s2l "solo")).2.1 (by decide)
      (fun h => absurd (decide_eq_true h) (by decide)),
    (resolveSystem_spec (s2l "base") (s2l "solo")).2.2⟩

/-! ## Claim C8 -/

theorem pml_fold (resolve : Str → Option DestFile) (read : DestFile → Str) :
    ∀ (ms : List Str) (acc : Str),
    ms.foldl
        (fun acc m =>
          match resolve m with
          | some f =>
            if f.ext = s2l "md" || f.ext = s2l "txt" then
              acc ++ linkWrapper f.basename (read f)
            else acc
          | none => acc)
        acc
      = acc ++ (ms.map (linkContribution resolve read)).flatten := by
  intro ms
  induction ms with
  | nil => intro acc; simp
  | cons m ms ih =>
    intro acc
    rw [List.foldl_cons, ih]
    have hstep : (match resolve m with
        | some f =>
          if f.ext = s2l "md" || f.ext = s2l "txt" then
            acc ++ linkWrapper f.basename (read f)
          else acc
        | none => acc) = acc ++ linkContribution resolve read m := by
      unfold linkContribution
      cases hr : resolve m with
      | none => simp
      | some f =>
        by_cases he : f.ext = s2l "md" || f.ext = s2l "txt"
        · simp [he]
        · simp [he]
    rw [hstep]
    simp [List.append_assoc]

/-- Claim C8: cross-reference expansion returns the original content with
the contributions of the scanned references appended after it, in scan
order (wiki links fully, then inline links) — so the result always begins
with the original content and resolved note content is only appended,
never prepended — and a reference whose target does not resolve, or
resolves to a non-text document, contributes nothing, leaving the content
byte-for-byte unchanged apart from other references' expansions. -/
theorem processMessageLinks_appends (resolve : Str → Option DestFile)
    (read : DestFile → Str) (content : Str) :
    processMessageLinks resolve read content
      = content ++
        ((scanWiki content ++ scanMd content).map (linkContribution resolve read)).flatten ∧
    content <+: processMessageLinks resolve read content ∧
    (∀ m, resolve m = none → linkContribution resolve read m = []) ∧
    (∀ m f, resolve m = some f → f.ext ≠ s2l "md" → f.ext ≠ s2l "txt" →
      linkContribution resolve read m = []) := by
  refine ⟨?_, ?_, ?_, ?_⟩
  · unfold processMessageLinks
    exact pml_fold resolve read (scanWiki content ++ scanMd content) content
  · unfold processMessageLinks
    rw [pml_fold resolve read (scanWiki content ++ scanMd content) content]
    exact ⟨_, rfl⟩
  · intro m h
    unfold linkContribution
    rw [h]
  · intro m f h h1 h2
    unfold linkContribution
    rw [h]
    simp [h1, h2]

/-- Witness for C8: an unresolvable `[[Ghost]]` contributes nothing and
the content is byte-for-byte unchanged. -/
theorem processMessageLinks_appends_witness :
    linkContribution (fun _ => none) (fun _ => []) (s2l "Ghost") = [] ∧
    processMessageLinks (fun _ => none) (fun _ => []) (s2l "see [[Ghost]]")
      = s2l "see [[Ghost]]" :=
  ⟨(processMessageLinks_appends (fun _ => none) (fun _ => [])
      (s2l "see [[Ghost]]")).2.2.1 (s2l "Ghost") rfl,
    ((processMessageLinks_appends (fun _ => none) (fun _ => [])
      (s2l "see [[Ghost]]")).1).trans (by decide)⟩

/-! ## Claim C9 -/

/-- Claim C9: the Gemini adapter, on a successful response whose body has
a missing or empty candidates list, returns the fixed no-response sentinel
string rather than raising an error. -/
theorem gemini_empty_candidates_sentinel (status : Nat) (text : Str)
    (body : GeminiRespBody) (hst : status < 400)
    (hc : body.candidates = none ∨ body.candidates = some []) :
    handleGemini ⟨status, text, body⟩ = .ok noResponseSentinel := by
  have h400 : ¬(400 ≤ (HttpResp.mk status text body).status) := Nat.not_le.mpr hst
  unfold handleGemini
  rw [if_neg h400]
  rcases hc with h | h <;> simp only [h]

/-- Witness for C9 at status 200 with an empty and with a missing
candidates list. -/
theorem gemini_empty_candidates_sentinel_witness :
    handleGemini ⟨200, [], ⟨some []⟩⟩ = .ok noResponseSentinel ∧
    handleGemini ⟨200, [], ⟨none⟩⟩ = .ok noResponseSentinel :=
  ⟨gemini_empty_candidates_sentinel 200 [] ⟨some []⟩ (by omega) (Or.inr rfl),
    gemini_empty_candidates_sentinel 200 [] ⟨none⟩ (by omega) (Or.inl rfl)⟩

/-! ## Claim C10 -/

/-- Claim C10: `callOpenAI` does not mutate the caller's message array.
With array aliasing made explicit as a heap of references, the spread
`[...messages]` allocates a fresh copy and the synthetic system turn is
unshifted onto that copy only, so after the call the caller's reference
still holds exactly the original turns, while the request body's message
list is the original list with the system turn at its head exactly when a
system instruction is present. -/
theorem callOpenAI_preserves_caller_messages (heap : Nat → List ChatMessage)
    (next msgsRef : Nat) (s : Settings) (ov : ChatContext)
    (href : msgsRef < next) (hkey : ¬(s.openaiApiKey = [])) :
    ∃ heap' req, buildOpenAI heap next msgsRef s ov = .ok (heap', next + 1, req) ∧
      heap' msgsRef = heap msgsRef ∧
      req.msgList = (if optTruthy ov.system then
        ChatMessage.mk Role.system (ov.system.getD []) :: heap msgsRef
      else heap msgsRef) := by
  have hne : ¬(msgsRef = next) := by omega
  unfold buildOpenAI
  rw [if_neg hkey]
  refine ⟨_, _, rfl, ?_, ?_⟩
  · cases hsys : optTruthy ov.system <;> simp [hsys, hne]
  · cases hsys : optTruthy ov.system <;> simp [Request.msgList, hsys, hne]

/-- Witness for C10: a concrete one-message heap with a system override
present. -/
theorem callOpenAI_preserves_caller_messages_witness :
    ∃ heap' req,
      buildOpenAI (fun _ => [⟨Role.user, s2l "hi"⟩]) 1 0
          ⟨s2l "openai", s2l "k", s2l "m", [], [], [], [], []⟩
          ⟨none, none, some (s2l "sys")⟩
        = .ok (heap', 2, req) ∧
      heap' 0 = [⟨Role.user, s2l "hi"⟩] ∧
      req.msgList = (if optTruthy (some (s2l "sys")) then
        ChatMessage.mk Role.system ((some (s2l "sys")).getD []) :: [⟨Role.user, s2l "hi"⟩]
      else [⟨Role.user, s2l "hi"⟩]) :=
  callOpenAI_preserves_caller_messages (fun _ => [⟨Role.user, s2l "hi"⟩]) 1 0
    ⟨s2l "openai", s2l "k", s2l "m", [], [], [], [], []⟩
    ⟨none, none, some (s2l "sys")⟩ (by omega) (by decide)

end ObsChat
